import Mathlib

/-!
Shallow embedding of the Cykura/Cyclos tick-bitmap core
(`programs/core/src/states/tick_bitmap.rs`) and proofs about it.

Rust integer semantics are modelled explicitly:
* `i32` / `i16` values are `Int`; Rust `%` on signed integers is truncated
  remainder (`Int.tmod`), Rust `/` is truncated division (`Int.tdiv`), and
  Rust `>>` on a signed integer is an arithmetic shift, i.e. floor division
  by a power of two (`Int.fdiv`).
* `u8` / `u128` values are `Nat`; wherever the source can overflow or
  underflow we model both the release-build behaviour (wrapping `% 256`)
  and the overflow-checked behaviour (`Option`, `none` = panic).
* Rust bitwise XOR on `i32` is two's-complement XOR, modelled by
  reinterpreting through `Nat` (`toU32` / `toI32`).
-/

namespace Cykura

/-- Reinterpret an `i32` value as its 32-bit two's-complement `Nat`. -/
def toU32 (x : Int) : Nat := (Int.emod x (2 ^ 32)).toNat

/-- Reinterpret a 32-bit `Nat` as a signed `i32` value. -/
def toI32 (n : Nat) : Int :=
  if n % 2 ^ 32 < 2 ^ 31 then ((n % 2 ^ 32 : Nat) : Int)
  else ((n % 2 ^ 32 : Nat) : Int) - 2 ^ 32

/-- Rust `^` (bitwise XOR) on `i32`, via two's complement. -/
def i32xor (a b : Int) : Int := toI32 (toU32 a ^^^ toU32 b)

/-- Rust `as i16` cast: truncate to 16 bits and reinterpret as signed. -/
def toI16 (x : Int) : Int :=
  if (Int.emod x (2 ^ 16)).toNat < 2 ^ 15 then ((Int.emod x (2 ^ 16)).toNat : Int)
  else ((Int.emod x (2 ^ 16)).toNat : Int) - 2 ^ 16

/-- `get_tick_div_spacing(tick, spacing)` from tick_bitmap.rs lines 31-34:
`assert_eq!(tick % spacing, 0); tick / spacing`.  Rust `%`/`/` on `i32` are
truncated remainder and truncated division.  A failed assert, or the panic
of `%` on a zero divisor, is modelled as `none`. -/
def get_tick_div_spacing (tick spacing : Int) : Option Int :=
  if spacing = 0 then none
  else if Int.tmod tick spacing = 0 then some (Int.tdiv tick spacing)
  else none

/-- `get_word_and_bit_pos(tick_div_spacing)` from tick_bitmap.rs lines 41-57.
The source expression `(tick_div_spacing >> 8) % 2 ^ 15` parses, under Rust
precedence (`%` binds tighter than `^`), as `((tick_div_spacing >> 8) % 2) ^ 15`
with `^` the bitwise XOR; likewise `tick_div_spacing.abs() % 2 ^ 8` is
`(tick_div_spacing.abs() % 2) ^ 8`.  The failed `assert!` on the range check
is `none`. -/
def get_word_and_bit_pos (tick_div_spacing : Int) : Option (Int × Nat) :=
  if -429772 ≤ tick_div_spacing ∧ tick_div_spacing ≤ 429772 then
    -- let mut word_pos = ((tick_div_spacing >> 8) % 2 ^ 15) as i16;
    let shifted : Int := Int.fdiv tick_div_spacing 256
    let word_pos0 : Int := toI16 (i32xor (Int.tmod shifted 2) 15)
    -- if tick_div_spacing.is_negative() { word_pos = -word_pos; }
    let word_pos : Int := if tick_div_spacing < 0 then -word_pos0 else word_pos0
    -- let bit_pos = (tick_div_spacing.abs() % 2 ^ 8) as u8;
    let bit_pos : Nat := Int.natAbs tick_div_spacing % 2 ^^^ 8
    some (word_pos, bit_pos)
  else none

/-- `TickBitmapState` (tick_bitmap.rs lines 18-27).  The three `Pubkey`
fields are opaque 32-byte identifiers, modelled as `Nat`.  `bitmap` is the
`[u128; 2]` pair: first component = low 128 bits, second = high 128 bits. -/
structure TickBitmapState where
  bump : Nat
  token_0 : Nat
  token_1 : Nat
  fee : Nat
  left_16_bits_of_tick : Nat
  bitmap : Nat × Nat

/-- `TickBitmapState::default()`: all fields zero. -/
def TickBitmapState.default : TickBitmapState :=
  { bump := 0, token_0 := 0, token_1 := 0, fee := 0,
    left_16_bits_of_tick := 0, bitmap := (0, 0) }

/-- `Bitmap::<256>::get(index)` applied to `decode_bitmap` (tick_bitmap.rs
lines 60-62): the 256-bit value stores bits 0-127 in `bitmap[0]` and bits
128-255 in `bitmap[1]`. -/
def TickBitmapState.get (s : TickBitmapState) (index : Nat) : Bool :=
  if index < 128 then Nat.testBit s.bitmap.1 index
  else Nat.testBit s.bitmap.2 (index - 128)

/-- `Bitmap::<256>::len()` from the `bitmaps` crate: counts the number of
`true` bits in the bitmap (it is the set-cardinality, NOT the word size). -/
def TickBitmapState.bitmap_len (s : TickBitmapState) : Nat :=
  ((List.range 256).filter (fun i => s.get i)).length

/-- `flip_tick(bit_pos)` (tick_bitmap.rs lines 65-73): XOR the 256-bit value
with a mask holding a single 1 at `bit_pos`, built as `[1 << bit_pos, 0]`
when `bit_pos < 128` and `[0, 1 << (bit_pos - 128)]` otherwise. -/
def flip_tick (s : TickBitmapState) (bit_pos : Nat) : TickBitmapState :=
  let mask : Nat × Nat :=
    if bit_pos < 128 then (1 <<< bit_pos, 0) else (0, 1 <<< (bit_pos - 128))
  { s with bitmap := (s.bitmap.1 ^^^ mask.1, s.bitmap.2 ^^^ mask.2) }

/-- Rust inclusive range `a..=b` over unsigned integers, as the list it
iterates: ascending from `a` while `a ≤ b`, empty when `a > b`. -/
def rustRangeIncl (a b : Nat) : List Nat :=
  if a ≤ b then List.range' a (b + 1 - a) else []

/-- Rust exclusive range `a..b` over unsigned integers, as the list it
iterates: `a, a+1, …, b-1`, empty when `a ≥ b`. -/
def rustRangeExcl (a b : Nat) : List Nat := List.range' a (b - a)

/-- `next_initialized_tick_within_one_word(current_bit_pos, lte)`
(tick_bitmap.rs lines 83-108), release-build semantics (u8 arithmetic
wraps modulo 256).
* `lte = true`: `for i in current_bit_pos..=0 { if bitmap.get(i) ... }`,
  falling through to `(0, false)`.
* `lte = false`: `for i in (current_bit_pos + 1)..(bitmap.len() as u8)`,
  falling through to `(bitmap.len() as u8 - 1, false)`; `bitmap.len()`
  counts set bits and `as u8` truncates it modulo 256. -/
def next_initialized_tick_within_one_word (s : TickBitmapState)
    (current_bit_pos : Nat) (lte : Bool) : Nat × Bool :=
  if lte then
    match (rustRangeIncl current_bit_pos 0).find? (fun i => s.get i) with
    | some i => (i, true)
    | none => (0, false)
  else
    let len8 : Nat := s.bitmap_len % 256
    match (rustRangeExcl ((current_bit_pos + 1) % 256) len8).find? (fun i => s.get i) with
    | some i => (i, true)
    | none => ((len8 + 255) % 256, false)

/-- `next_initialized_tick_within_one_word`, overflow-checked semantics:
identical to the release version except that the u8 computations
`current_bit_pos + 1` and `bitmap.len() as u8 - 1` return `none` (panic)
when they overflow or underflow, as in a build with overflow checks. -/
def next_initialized_tick_within_one_word_checked (s : TickBitmapState)
    (current_bit_pos : Nat) (lte : Bool) : Option (Nat × Bool) :=
  if lte then
    match (rustRangeIncl current_bit_pos 0).find? (fun i => s.get i) with
    | some i => some (i, true)
    | none => some (0, false)
  else
    if 255 < current_bit_pos + 1 then none
    else
      let len8 : Nat := s.bitmap_len % 256
      match (rustRangeExcl (current_bit_pos + 1) len8).find? (fun i => s.get i) with
      | some i => some (i, true)
      | none => if len8 = 0 then none else some (len8 - 1, false)

/-- A record whose only set bit is bit 5 (low half value `32 = 2^5`). -/
def recordBit5 : TickBitmapState :=
  { TickBitmapState.default with bitmap := (32, 0) }

/-- A record whose only set bit is bit 200 (high half value `2^72`,
since `200 - 128 = 72`). -/
def recordBit200 : TickBitmapState :=
  { TickBitmapState.default with bitmap := (0, 2 ^ 72) }

/-! ## Theorems -/

/-- C1: the claimed round-trip `word_pos * 256 + bit_pos = tick_div_spacing`
fails on the code: at `tick_div_spacing = 0` the codec returns
`(word_pos, bit_pos) = (15, 8)`, whose reconstruction is `3848 ≠ 0`. -/
theorem C1_codec_not_roundtrip_at_zero :
    get_word_and_bit_pos 0 = some (15, 8) ∧ (15 : Int) * 256 + 8 ≠ 0 := by
  decide

/-- C2: the claimed descending left scan fails on the code: on a record
whose bit 5 is set, searching left from `start_bit = 5` returns `(0, false)`
instead of the claimed `(5, true)`, because the loop `current_bit_pos..=0`
is empty for any positive start. -/
theorem C2_left_search_misses_set_bit :
    recordBit5.get 5 = true ∧
    next_initialized_tick_within_one_word recordBit5 5 true = (0, false) := by
  decide

/-- C3: the claimed ascending right scan fails on the code: on a record
whose only set bit is 200, searching right from `start_bit = 10` returns
`(0, false)` instead of the claimed `(200, true)`, because the loop's upper
bound is `bitmap.len()` (the count of set bits, here 1), not the word
size 256. -/
theorem C3_right_search_misses_set_bit :
    recordBit200.get 200 = true ∧
    next_initialized_tick_within_one_word recordBit200 10 false = (0, false) := by
  decide

/-- C4: the claimed absence of overflow and underflow fails on the code:
on the all-zero record a right search from `start_bit = 10` evaluates
`bitmap.len() as u8 - 1 = 0u8 - 1`, a `u8` underflow; under
overflow-checked semantics the call panics (`none`). -/
theorem C4_right_search_underflow_on_zero_record :
    next_initialized_tick_within_one_word_checked TickBitmapState.default 10 false
      = none := by
  decide

/-- C5: flipping the same bit position twice restores the record exactly
(`flip_tick` is an involution), for every record and every
`bit_pos` in `[0, 255]`. -/
theorem C5_flip_tick_involution (s : TickBitmapState) (bit_pos : Nat)
    (h : bit_pos ≤ 255) :
    flip_tick (flip_tick s bit_pos) bit_pos = s := by
  by_cases hb : bit_pos < 128 <;>
    simp [flip_tick, hb, Nat.xor_assoc]

/-- C5 witness: the involution at a concrete record and position. -/
theorem C5_flip_tick_involution_witness :
    130 ≤ 255 ∧ flip_tick (flip_tick recordBit5 130) 130 = recordBit5 :=
  ⟨by decide, C5_flip_tick_involution recordBit5 130 (by decide)⟩

/-- C6: `flip_tick k` toggles exactly bit `k` of the 256-bit value and
leaves every other bit's read value unchanged (bits 0-127 live in the low
128-bit half, bits 128-255 in the high half); flipping bit 128 on the
all-zero record yields halves `(0, 1)` and flipping again `(0, 0)`. -/
theorem C6_flip_tick_isolation (s : TickBitmapState) (k j : Nat)
    (hk : k ≤ 255) (hj : j ≤ 255) (hne : j ≠ k) :
    (flip_tick s k).get j = s.get j ∧
    (flip_tick s k).get k = !(s.get k) ∧
    (flip_tick TickBitmapState.default 128).bitmap = (0, 1) ∧
    (flip_tick (flip_tick TickBitmapState.default 128) 128).bitmap = (0, 0) := by
  refine ⟨?_, ?_, by decide, by decide⟩
  · unfold flip_tick TickBitmapState.get
    by_cases hk128 : k < 128 <;> by_cases hj128 : j < 128 <;>
      simp [hk128, hj128, Nat.shiftLeft_eq, Nat.testBit_two_pow, Ne.symm hne]
    have hsub : k - 128 ≠ j - 128 := by omega
    simp [hsub]
  · unfold flip_tick TickBitmapState.get
    by_cases hk128 : k < 128 <;>
      simp [hk128, Nat.shiftLeft_eq, Nat.testBit_two_pow]

/-- C6 witness: isolation and toggling at a concrete record, flipped
position 128 and probed position 5. -/
theorem C6_flip_tick_isolation_witness :
    128 ≤ 255 ∧ 5 ≤ 255 ∧ 5 ≠ 128 ∧
    ((flip_tick recordBit200 128).get 5 = recordBit200.get 5 ∧
     (flip_tick recordBit200 128).get 128 = !(recordBit200.get 128) ∧
     (flip_tick TickBitmapState.default 128).bitmap = (0, 1) ∧
     (flip_tick (flip_tick TickBitmapState.default 128) 128).bitmap = (0, 0)) :=
  ⟨by decide, by decide, by decide,
    C6_flip_tick_isolation recordBit200 128 5 (by decide) (by decide) (by decide)⟩

/-- C7: for positive spacing, `get_tick_div_spacing` fails exactly when
`tick % spacing ≠ 0`, and otherwise returns the exact integer quotient
(`spacing * result = tick`); in particular `get_tick_div_spacing 7 3`
fails. -/
theorem C7_get_tick_div_spacing_contract (tick spacing : Int)
    (hs : 0 < spacing) :
    (get_tick_div_spacing tick spacing = none ↔ Int.tmod tick spacing ≠ 0) ∧
    (Int.tmod tick spacing = 0 →
      get_tick_div_spacing tick spacing = some (Int.tdiv tick spacing) ∧
      spacing * Int.tdiv tick spacing = tick) ∧
    get_tick_div_spacing 7 3 = none := by
  have hsz : spacing ≠ 0 := by omega
  refine ⟨?_, fun hm => ⟨?_, ?_⟩, by decide⟩
  · unfold get_tick_div_spacing
    by_cases hm : Int.tmod tick spacing = 0 <;> simp [hsz, hm]
  · unfold get_tick_div_spacing
    simp [hsz, hm]
  · have h2 := Int.tdiv_add_tmod tick spacing
    rw [hm, add_zero] at h2
    exact h2

/-- C7 witness: the contract at `tick = 6`, `spacing = 3`. -/
theorem C7_get_tick_div_spacing_contract_witness :
    0 < (3 : Int) ∧
    ((get_tick_div_spacing 6 3 = none ↔ Int.tmod 6 3 ≠ 0) ∧
     (Int.tmod 6 3 = 0 →
       get_tick_div_spacing 6 3 = some (Int.tdiv 6 3) ∧
       (3 : Int) * Int.tdiv 6 3 = 6) ∧
     get_tick_div_spacing 7 3 = none) :=
  ⟨by decide, C7_get_tick_div_spacing_contract 6 3 (by decide)⟩

/-- C8: `get_word_and_bit_pos` fails exactly when its input lies outside
`[-429772, 429772]`; in particular it fails at `500000`, and inside the
range it always returns a result. -/
theorem C8_get_word_and_bit_pos_range_check (tds : Int) :
    (get_word_and_bit_pos tds = none ↔ (tds < -429772 ∨ 429772 < tds)) ∧
    get_word_and_bit_pos 500000 = none := by
  refine ⟨?_, by decide⟩
  unfold get_word_and_bit_pos
  by_cases h : -429772 ≤ tds ∧ tds ≤ 429772 <;> simp [h] <;> omega

/-- C9: the claimed strict order preservation within a word fails on the
code: `0 < 2` map to the same `word_pos = 15` with equal (not strictly
increasing) `bit_pos = 8`. -/
theorem C9_not_order_preserving :
    get_word_and_bit_pos 0 = some (15, 8) ∧
    get_word_and_bit_pos 2 = some (15, 8) := by
  decide

/-- C10: for every in-range input, the `bit_pos` component returned by
`get_word_and_bit_pos` is 8 or 9, because the source expression parses as
`(abs % 2) XOR 8`. -/
theorem C10_bit_pos_always_8_or_9 (tds : Int)
    (h1 : -429772 ≤ tds) (h2 : tds ≤ 429772) :
    (get_word_and_bit_pos tds).map Prod.snd = some 8 ∨
    (get_word_and_bit_pos tds).map Prod.snd = some 9 := by
  unfold get_word_and_bit_pos
  rw [if_pos ⟨h1, h2⟩]
  rcases Nat.mod_two_eq_zero_or_one (Int.natAbs tds) with h | h
  · left
    simp [h]
  · right
    simp [h]

/-- C10 witness: at `tick_div_spacing = 5` the returned `bit_pos` is 8
or 9 (it is 9, since 5 is odd). -/
theorem C10_bit_pos_always_8_or_9_witness :
    (-429772 ≤ (5 : Int)) ∧ ((5 : Int) ≤ 429772) ∧
    ((get_word_and_bit_pos 5).map Prod.snd = some 8 ∨
     (get_word_and_bit_pos 5).map Prod.snd = some 9) :=
  ⟨by decide, by decide, C10_bit_pos_always_8_or_9 5 (by decide) (by decide)⟩

end Cykura
